import Mathlib

/-!
Shallow embedding of the turn-dispatch loop and session controller of
`main.py` (the DQN-Labs/Chess_AI repository).

The game engine (pyspiel) and the agents are external collaborators; they
are modelled by the `Engine` structure (the exact set of engine calls the
core makes) and the `Bot` type (a bot is either the interactive HumanBot,
which the core special-cases with `input()`, or any other bot, whose
`step` method is an opaque function of the state).

The process-global numpy random source consumed by `np.random.choice`
(used at chance nodes) is modelled as a stream of rational draws together
with a position; Python's global `random` module (used by `random_first`)
is a second, independent stream.  The interactive input stream (`stdin`)
is a list of lines; an empty list means end-of-input, so `input()` raises
EOFError.

Every call the dispatcher makes into a bot, and every state mutation, is
recorded in an event trace so that ordering claims about `inform_action`
versus `apply_action` can be stated and settled.
-/

namespace ChessAI

/-- Interface of the game-rules engine, as used by `main.py` (pyspiel).
States are opaque values of type `S`; actions are engine integers. -/
structure Engine (S : Type) where
  newInitialState : S
  currentPlayer : S → Int
  legalActions : S → List Nat
  actionToString : S → Int → Nat → String
  isTerminal : S → Bool
  isChanceNode : S → Bool
  isSimultaneousNode : S → Bool
  chanceOutcomes : S → List (Nat × ℚ)
  applyAction : S → Nat → S
  returns : S → List ℚ

/-- An agent.  `human` is the interactive `human.HumanBot`, special-cased
by `_play_game` via `isinstance`; every other bot kind (mcts, az, random,
gtp) exposes an opaque `step : state → action`. -/
inductive Bot (S : Type) where
  | human
  | scripted (step : S → Nat)

/-- The state of the process-global numpy pseudorandom source: a stream of
uniform draws and the current position in it. -/
structure Rng where
  stream : Nat → ℚ
  pos : Nat

/-- Observable calls and mutations performed while playing, in program
order.  `applyE` records the state before and after the mutation, the
acting player, the applied action and whether the ply came from the
forced-opening (initial actions) loop. -/
inductive Event (S : Type) where
  | classify (s : S)
  | chanceDraw (s : S) (u : ℚ)
  | humanPrompt (s : S) (input : String)
  | botStep (idx : Nat) (s : S) (action : Nat)
  | inform (idx : Nat) (s : S) (player : Int) (action : Nat)
  | record (label : String)
  | applyE (pre post : S) (actor : Int) (action : Nat) (forced : Bool)
deriving DecidableEq

/-- Ambient process state threaded through a run: interactive input
stream, global numpy rng, global Python `random` rng, and the event
trace accumulated so far. -/
structure PS (S : Type) where
  stdin : List String
  rng : Rng
  pyStream : Nat → Nat
  pyPos : Nat
  trace : List (Event S)

/-- The ways a run can stop abnormally.  `exitInvalid` is `sys.exit` with
an error message, `eofError` is Python's `EOFError` from `input()` at end
of input, `simulNode` is the `ValueError` raised at a simultaneous node,
`indexError` models `bots[p]` out of range, `npError` models
`np.random.choice` on an empty population, `assertError` models the
`assert not initial_actions` under `random_first`, and `fuelOut` is the
embedding's recursion-fuel marker (never produced by a sufficiently
fuelled run). -/
inductive PlayErr where
  | fuelOut
  | eofError
  | exitInvalid (msg : String)
  | simulNode
  | indexError
  | npError
  | assertError
deriving DecidableEq

/-- Translation of `_get_action(state, action_str)`: scan the legal
actions in order and return the first whose string (under the current
player's perspective) equals the given label; `None` if no match. -/
def _get_action {S : Type} (E : Engine S) (s : S) (actionStr : String) : Option Nat :=
  (E.legalActions s).find? (fun a => actionStr == E.actionToString s (E.currentPlayer s) a)

/-- All legal actions of `s` whose label matches `actionStr`, in
legal-action order (used to state uniqueness properties of
`_get_action`). -/
def matchingActions {S : Type} (E : Engine S) (s : S) (actionStr : String) : List Nat :=
  (E.legalActions s).filter (fun a => actionStr == E.actionToString s (E.currentPlayer s) a)

/-- Python list indexing `l[i]` with negative-index wraparound; `none`
models `IndexError`. -/
def pyGet {α : Type} (l : List α) (i : Int) : Option α :=
  if 0 ≤ i then l.get? i.toNat
  else if (-i).toNat ≤ l.length then l.get? (l.length - (-i).toNat)
  else none

/-- Rational addition computed directly on numerators and denominators
(definitionally evaluable; proven equal to `+` on `ℚ` in `ratAdd_eq`
below). -/
def ratAdd (a b : ℚ) : ℚ :=
  mkRat (a.num * b.den + b.num * a.den) (a.den * b.den)

/-- Sum of a list of rationals via `ratAdd` (proven equal to `List.sum`
in `ratSum_eq` below). -/
def ratSum : List ℚ → ℚ
  | [] => 0
  | x :: r => ratAdd x (ratSum r)

/-- Cumulative sums of a probability vector (the `cdf` that
`np.random.choice` builds from its `p` argument). -/
def cdf (probs : List ℚ) : List ℚ :=
  (List.range probs.length).map (fun i => ratSum (probs.take (i + 1)))

/-- `searchsorted(..., side='right')` on a sorted list: the number of
elements that are `≤ u`. -/
def searchsortedRight (l : List ℚ) (u : ℚ) : Nat :=
  l.countP (fun c => decide (c ≤ u))

/-- Index selected by `np.random.choice(a, p=probs)` for a single uniform
draw `u`: `searchsorted` on the cdf, clipped to the population size. -/
def npChoiceIdx (probs : List ℚ) (u : ℚ) : Nat :=
  min (searchsortedRight (cdf probs) u) (probs.length - 1)

/-- One call of `np.random.choice(action_list, p=prob_list)` on the
global numpy source: consumes exactly one uniform draw (advancing the
source) and selects by inverse cdf. -/
def npDraw (outcomes : List (Nat × ℚ)) (r : Rng) : Option Nat × Rng :=
  ((outcomes.map Prod.fst).get? (npChoiceIdx (outcomes.map Prod.snd) (r.stream r.pos)),
   { stream := r.stream, pos := r.pos + 1 })

/-- `random.choice(seq)` on Python's global `random` source. -/
def pyChoose {S : Type} (l : List Nat) (ps : PS S) : Option Nat × PS S :=
  if l.isEmpty then (none, ps)
  else (l.get? (ps.pyStream ps.pyPos % l.length), { ps with pyPos := ps.pyPos + 1 })

/-- The `inform_action` events sent to the bots with the given indices,
all carrying the same (current) state, acting player and action. -/
def informEvents {S : Type} (idxs : List Nat) (s : S) (p : Int) (a : Nat) : List (Event S) :=
  idxs.map (fun i => Event.inform i s p a)

/-- Indices `i` of `range n` with `i != current_player`: the bots informed
by the main loop (`for i, bot in enumerate(bots): if i != current_player`). -/
def nonActingIdxs (n : Nat) (cp : Int) : List Nat :=
  (List.range n).filter (fun i => decide ((i : Int) ≠ cp))

/-- Lines 162-166 of `_play_game`: inform every bot other than the
current player (with the still-unchanged state), append the label to the
history, then apply the action to the state. -/
def applyAndNotify {S : Type} (E : Engine S) (nBots : Nat) (cp : Int) (s : S) (a : Nat)
    (astr : String) (hist : List String) (ps : PS S) : S × List String × PS S :=
  let evs := informEvents (nonActingIdxs nBots cp) s cp a
  let s' := E.applyAction s a
  (s', hist ++ [astr],
   { ps with trace := ps.trace ++ evs ++ [Event.record astr] ++ [Event.applyE s s' cp a false] })

/-- The forced-opening loop of `_play_game` (`for action_str in
initial_actions`): resolve each label, `sys.exit` on failure, otherwise
append to history, inform every bot (including the actor), and apply. -/
def runForced {S : Type} (E : Engine S) (bots : List (Bot S)) :
    List String → S → List String → PS S → Except PlayErr (S × List String) × PS S
  | [], s, hist, ps => (Except.ok (s, hist), ps)
  | astr :: rest, s, hist, ps =>
    match _get_action E s astr with
    | none => (Except.error (PlayErr.exitInvalid (String.append "Invalid action: " astr)), ps)
    | some a =>
      let cp := E.currentPlayer s
      let s' := E.applyAction s a
      runForced E bots rest s' (hist ++ [astr])
        { ps with trace := ps.trace ++ [Event.record astr] ++ informEvents (List.range bots.length) s cp a
            ++ [Event.applyE s s' cp a true] }

/-- The `while not state.is_terminal()` loop of `_play_game`:
classify the pending node (chance / simultaneous / decision), obtain an
action (global-rng chance draw, `input()` for a HumanBot, or `bot.step`),
then inform the non-acting bots, record and apply.  Structural recursion
on a fuel argument; running out of fuel yields the artificial
`PlayErr.fuelOut`. -/
def playLoop {S : Type} (E : Engine S) (bots : List (Bot S)) :
    Nat → S → List String → PS S → Except PlayErr (List ℚ × List String) × PS S
  | 0, _, _, ps => (Except.error PlayErr.fuelOut, ps)
  | Nat.succ fuel, s, hist, ps =>
    if E.isTerminal s then (Except.ok (E.returns s, hist), ps)
    else
      let cp := E.currentPlayer s
      let ps1 : PS S := { ps with trace := ps.trace ++ [Event.classify s] }
      if E.isChanceNode s then
        match npDraw (E.chanceOutcomes s) ps1.rng with
        | (none, _) => (Except.error PlayErr.npError, ps1)
        | (some a, rng') =>
          let u := ps1.rng.stream ps1.rng.pos
          let ps2 : PS S := { ps1 with rng := rng', trace := ps1.trace ++ [Event.chanceDraw s u] }
          let astr := E.actionToString s cp a
          let r := applyAndNotify E bots.length cp s a astr hist ps2
          playLoop E bots fuel r.1 r.2.1 r.2.2
      else if E.isSimultaneousNode s then
        (Except.error PlayErr.simulNode, ps1)
      else
        match pyGet bots cp with
        | none => (Except.error PlayErr.indexError, ps1)
        | some Bot.human =>
          match ps1.stdin with
          | [] => (Except.error PlayErr.eofError, ps1)
          | astr :: restIn =>
            let ps2 : PS S := { ps1 with stdin := restIn, trace := ps1.trace ++ [Event.humanPrompt s astr] }
            match _get_action E s astr with
            | none => (Except.error (PlayErr.exitInvalid (String.append "Invalid move: " astr)), ps2)
            | some a =>
              let r := applyAndNotify E bots.length cp s a astr hist ps2
              playLoop E bots fuel r.1 r.2.1 r.2.2
        | some (Bot.scripted f) =>
          let a := f s
          let astr := E.actionToString s cp a
          let ps2 : PS S := { ps1 with trace := ps1.trace ++ [Event.botStep cp.toNat s a] }
          let r := applyAndNotify E bots.length cp s a astr hist ps2
          playLoop E bots fuel r.1 r.2.1 r.2.2

/-- Forced-opening replay followed by the main loop (body of
`_play_game` after the optional `random_first` rewrite). -/
def playGameFrom {S : Type} (E : Engine S) (bots : List (Bot S)) (acts : List String)
    (fuel : Nat) (s : S) (ps : PS S) : Except PlayErr (List ℚ × List String) × PS S :=
  match runForced E bots acts s [] ps with
  | (Except.error e, ps') => (Except.error e, ps')
  | (Except.ok (s', hist), ps') => playLoop E bots fuel s' hist ps'

/-- `_play_game(game, bots, initial_actions)`: build the initial state,
optionally replace the initial actions by one random first move (Python's
global `random`), then replay the forced openings and run the loop. -/
def playGame {S : Type} (E : Engine S) (bots : List (Bot S)) (randomFirst : Bool)
    (initialActions : List String) (fuel : Nat) (ps : PS S) :
    Except PlayErr (List ℚ × List String) × PS S :=
  let s := E.newInitialState
  if randomFirst then
    if initialActions.isEmpty then
      match pyChoose (E.legalActions s) ps with
      | (none, ps') => (Except.error PlayErr.indexError, ps')
      | (some a, ps') =>
        playGameFrom E bots [E.actionToString s (E.currentPlayer s) a] fuel s ps'
    else (Except.error PlayErr.assertError, ps)
  else playGameFrom E bots initialActions fuel s ps

/-- The session accumulator of `main`: the `histories` defaultdict (as an
association list in insertion order), `overall_returns` and
`overall_wins`. -/
structure Stats where
  histories : List (String × Nat)
  overallReturns : List ℚ
  overallWins : List Nat
deriving DecidableEq

/-- The accumulator as initialised at the start of `main`. -/
def stats0 : Stats :=
  { histories := [], overallReturns := [0, 0], overallWins := [0, 0] }

/-- `histories[key] += 1` on a defaultdict(int) represented as an
association list. -/
def bumpHist : List (String × Nat) → String → List (String × Nat)
  | [], k => [(k, 1)]
  | (k', c) :: rest, k => if k' = k then (k', c + 1) :: rest else (k', c) :: bumpHist rest k

/-- `for i, v in enumerate(returns): overall_returns[i] += v`. -/
def addReturns : List ℚ → List ℚ → List ℚ
  | acc, [] => acc
  | [], _ :: _ => []
  | x :: acc, v :: vs => ratAdd x v :: addReturns acc vs

/-- `for i, v in enumerate(returns): if v > 0: overall_wins[i] += 1`. -/
def addWins : List Nat → List ℚ → List Nat
  | acc, [] => acc
  | [], _ :: _ => []
  | w :: acc, v :: vs => (if 0 < v then w + 1 else w) :: addWins acc vs

/-- Folding one game's result into the session accumulator (the loop body
of `main` after `_play_game` returns). -/
def foldResult (st : Stats) (rets : List ℚ) (hist : List String) : Stats :=
  { histories := bumpHist st.histories (String.intercalate " " hist),
    overallReturns := addReturns st.overallReturns rets,
    overallWins := addWins st.overallWins rets }

/-- How the session ends: the `for` loop ran to completion, it was
stopped early by a caught `KeyboardInterrupt`/`EOFError` (the summary is
still printed), or an uncaught exception (e.g. `SystemExit` from
`sys.exit`, or the simultaneous-node `ValueError`) propagated, in which
case no summary is printed.  `gameNum` is the Python variable `game_num`
at the end. -/
inductive SessionOutcome where
  | finished (gameNum : Int) (stats : Stats)
  | stopped (gameNum : Int) (stats : Stats)
  | exited (e : PlayErr) (stats : Stats)
deriving DecidableEq

/-- Which abnormal ends the `except (KeyboardInterrupt, EOFError)` handler
in `main` catches.  `SystemExit` (from `sys.exit`) and `ValueError` are
not subclasses of these, so they propagate. -/
def sessionCatches : PlayErr → Bool
  | PlayErr.eofError => true
  | _ => false

/-- The `for game_num in range(num_games)` loop of `main`, over the list
of remaining game indices.  At index 2 the seat-1 bot is replaced by a
HumanBot; each completed game is folded into the stats; a caught
interrupt does `game_num -= 1` and stops. -/
def sessionLoop {S : Type} (E : Engine S) (randomFirst : Bool) (initActs : List String)
    (fuel : Nat) : List Nat → Int → List (Bot S) → Stats → PS S → SessionOutcome × PS S
  | [], g, _, st, ps => (SessionOutcome.finished g st, ps)
  | k :: ks, _, bots, st, ps =>
    let bots' := if k = 2 then bots.set 1 Bot.human else bots
    match playGame E bots' randomFirst initActs fuel ps with
    | (Except.ok (rets, hist), ps') =>
      sessionLoop E randomFirst initActs fuel ks (Int.ofNat k) bots' (foldResult st rets hist) ps'
    | (Except.error e, ps') =>
      if sessionCatches e then (SessionOutcome.stopped ((Int.ofNat k) - 1) st, ps')
      else (SessionOutcome.exited e st, ps')

/-- The session part of `main` (after the game is loaded and the bots
are built): run `num_games` games starting from the empty accumulator
and `game_num = 0`. -/
def mainRun {S : Type} (E : Engine S) (bots : List (Bot S)) (randomFirst : Bool)
    (initActs : List String) (numGames : Nat) (fuel : Nat) (ps : PS S) :
    SessionOutcome × PS S :=
  sessionLoop E randomFirst initActs fuel (List.range numGames) 0 bots stats0 ps

/-- The "Number of games played" figure printed at the end of `main`:
`game_num + 1`; `none` when an uncaught exception skipped the summary. -/
def gamesPlayedReport : SessionOutcome → Option Int
  | SessionOutcome.finished g _ => some (g + 1)
  | SessionOutcome.stopped g _ => some (g + 1)
  | SessionOutcome.exited _ _ => none

/-- The components of a run that the spec calls its observable outcome:
the result (or error), the remaining interactive input, and the full
event trace, omitting only the positions of the two global pseudorandom
sources. -/
def sessionObs {S : Type} (r : SessionOutcome × PS S) :
    SessionOutcome × List String × List (Event S) :=
  (r.1, r.2.stdin, r.2.trace)

/-- The observable part of an intermediate run result: its value, the
remaining interactive input and the event trace (everything except the
positions of the global pseudorandom sources). -/
def resObs {S A : Type} (r : A × PS S) : A × List String × List (Event S) :=
  (r.1, r.2.stdin, r.2.trace)

/-! Trace checkers.  These decidable predicates over event traces state
the observation-ordering properties claimed of the dispatcher. -/

/-- Scanner formalising "each `inform_action` call for a ply happens
after that ply's `apply_action` and receives the post-apply state":
walking the trace, the most recent apply since the last classification
must exist and carry a post-state and action equal to those passed to
every subsequent inform. -/
def postScan {S : Type} [DecidableEq S] :
    Option (S × Nat) → List (Event S) → Bool
  | _, [] => true
  | _, Event.classify _ :: r => postScan none r
  | last, Event.inform _ s _ a :: r =>
    (match last with
     | some (s', a') => decide (s = s') && decide (a = a')
     | none => false) && postScan last r
  | _, Event.applyE _ post _ a _ :: r => postScan (some (post, a)) r
  | last, _ :: r => postScan last r

/-- The claim "observations happen strictly after the ply's state
mutation, with post-apply arguments", as a predicate on a trace. -/
def observePostApply {S : Type} [DecidableEq S] (tr : List (Event S)) : Bool :=
  postScan none tr

/-- Scanner for the pre-apply ordering: informs are pending until the
next `apply_action`, which must mutate exactly the state and action the
informs carried; no inform may still be pending when the next ply is
classified or when the trace ends. -/
def preScan {S : Type} [DecidableEq S] :
    List (S × Nat) → List (Event S) → Bool × List (S × Nat)
  | p, [] => (true, p)
  | p, Event.classify _ :: r =>
    let t := preScan [] r
    (p.isEmpty && t.1, t.2)
  | p, Event.inform _ s _ a :: r => preScan (p ++ [(s, a)]) r
  | p, Event.applyE pre _ _ a _ :: r =>
    let t := preScan [] r
    (p.all (fun q => decide (q = (pre, a))) && t.1, t.2)
  | p, _ :: r => preScan p r

/-- Every `inform_action` call receives the pre-apply state and the
action about to be applied, happens strictly before that ply's state
mutation, and all of a ply's informs happen before the next ply's
classification. -/
def observePreApply {S : Type} [DecidableEq S] (tr : List (Event S)) : Bool :=
  (preScan [] tr).1 && (preScan [] tr).2.isEmpty

/-- Scanner collecting, per ply, the indices of the bots informed (in
call order) and comparing them at the ply's apply with the expected
index list: all bots for a forced-opening ply, the non-acting bots
otherwise. -/
def seatScan {S : Type} (n : Nat) :
    List Nat → List (Event S) → Bool × List Nat
  | p, [] => (true, p)
  | p, Event.classify _ :: r =>
    let t := seatScan n [] r
    (p.isEmpty && t.1, t.2)
  | p, Event.inform i _ _ _ :: r => seatScan n (p ++ [i]) r
  | p, Event.applyE _ _ actor _ forced :: r =>
    let t := seatScan n [] r
    (decide (p = (if forced then List.range n else nonActingIdxs n actor)) && t.1, t.2)
  | p, _ :: r => seatScan n p r

/-- Per applied ply, the informed bots are exactly: every bot for a
forced-opening ply, and every bot whose index differs from the acting
player otherwise — each exactly once. -/
def informedSeatsOK {S : Type} (n : Nat) (tr : List (Event S)) : Bool :=
  (seatScan n [] tr).1 && (seatScan n [] tr).2.isEmpty

/-- Scanner for the claim as the spec states it: for every applied ply
(forced openings included) the informed bots are exactly the non-acting
ones. -/
def seatScanClaim {S : Type} (n : Nat) :
    List Nat → List (Event S) → Bool × List Nat
  | p, [] => (true, p)
  | p, Event.classify _ :: r =>
    let t := seatScanClaim n [] r
    (p.isEmpty && t.1, t.2)
  | p, Event.inform i _ _ _ :: r => seatScanClaim n (p ++ [i]) r
  | p, Event.applyE _ _ actor _ _ :: r =>
    let t := seatScanClaim n [] r
    (decide (p = nonActingIdxs n actor) && t.1, t.2)
  | p, _ :: r => seatScanClaim n p r

/-- The claim-as-stated observation set: every ply informs exactly the
non-acting bots (the acting bot never). -/
def claimSeatsOK {S : Type} (n : Nat) (tr : List (Event S)) : Bool :=
  (seatScanClaim n [] tr).1 && (seatScanClaim n [] tr).2.isEmpty

/-- Events that neither scanner inspects: prompts, bot steps, chance
draws and history records. -/
def neutralEv {S : Type} : Event S → Bool
  | Event.classify _ => false
  | Event.inform _ _ _ _ => false
  | Event.applyE _ _ _ _ _ => false
  | _ => true

/-- Shape of the traces the dispatcher can produce: a sequence of
complete ply chunks (forced-opening chunks and main-loop chunks),
possibly ending in a partial chunk cut off by an error or by fuel.  `n`
is the number of bots. -/
inductive ChunksOK {S : Type} (n : Nat) : List (Event S) → Prop where
  | nil : ChunksOK n []
  | classifyOnly (s : S) : ChunksOK n [Event.classify s]
  | classifyNeutral (s : S) (e : Event S) (he : neutralEv e = true) :
      ChunksOK n [Event.classify s, e]
  | forcedChunk (astr : String) (s s' : S) (cp : Int) (a : Nat) (d : List (Event S))
      (hd : ChunksOK n d) :
      ChunksOK n (Event.record astr :: (informEvents (List.range n) s cp a
        ++ Event.applyE s s' cp a true :: d))
  | mainChunk (e : Event S) (he : neutralEv e = true) (s s' : S) (cp : Int) (a : Nat)
      (astr : String) (d : List (Event S)) (hd : ChunksOK n d) :
      ChunksOK n (Event.classify s :: e :: (informEvents (nonActingIdxs n cp) s cp a
        ++ Event.record astr :: Event.applyE s s' cp a false :: d))

/-! Concrete instances used for counterexamples and witnesses. -/

/-- A deterministic two-ply toy game: state counts applied plies, seat
`s % 2` moves, the single legal action is `0` labelled `"m"`, the game
ends after two plies with returns `[1, -1]`. -/
def E1 : Engine Nat :=
  { newInitialState := 0
    currentPlayer := fun s => Int.ofNat (s % 2)
    legalActions := fun _ => [0]
    actionToString := fun _ _ _ => "m"
    isTerminal := fun s => decide (2 ≤ s)
    isChanceNode := fun _ => false
    isSimultaneousNode := fun _ => false
    chanceOutcomes := fun _ => []
    applyAction := fun s _ => s + 1
    returns := fun _ => [1, -1] }

/-- A one-ply game whose root is a chance node with two equally likely
outcomes `0 ↦ "h"` and `1 ↦ "t"`; applying outcome `a` reaches the
terminal state `1 + a`. -/
def E4 : Engine Nat :=
  { newInitialState := 0
    currentPlayer := fun s => if s = 0 then -1 else Int.ofNat ((s - 1) % 2)
    legalActions := fun _ => [0, 1]
    actionToString := fun _ _ a => if a = 0 then "h" else "t"
    isTerminal := fun s => decide (1 ≤ s)
    isChanceNode := fun s => decide (s = 0)
    isSimultaneousNode := fun _ => false
    chanceOutcomes := fun _ => [(0, mkRat 1 2), (1, mkRat 1 2)]
    applyAction := fun s a => s + 1 + a
    returns := fun s => if s = 1 then [1, -1] else [-1, 1]
  }

/-- A game whose root is a simultaneous node. -/
def E7 : Engine Nat :=
  { newInitialState := 0
    currentPlayer := fun _ => 0
    legalActions := fun _ => [0]
    actionToString := fun _ _ _ => "m"
    isTerminal := fun _ => false
    isChanceNode := fun _ => false
    isSimultaneousNode := fun _ => true
    chanceOutcomes := fun _ => []
    applyAction := fun s _ => s
    returns := fun _ => [0, 0] }

/-- A state with two distinct legal actions `7` and `8` carrying the same
label `"x"` (a duplicate-label situation for the action codec). -/
def E8 : Engine Nat :=
  { newInitialState := 0
    currentPlayer := fun _ => 0
    legalActions := fun _ => [7, 8]
    actionToString := fun _ _ _ => "x"
    isTerminal := fun _ => false
    isChanceNode := fun _ => false
    isSimultaneousNode := fun _ => false
    chanceOutcomes := fun _ => []
    applyAction := fun s _ => s
    returns := fun _ => [0, 0] }

/-- Two scripted (non-interactive) bots that always pick action `0`. -/
def botsScripted : List (Bot Nat) :=
  [Bot.scripted (fun _ => 0), Bot.scripted (fun _ => 0)]

/-- Two interactive bots. -/
def botsHuman : List (Bot Nat) :=
  [Bot.human, Bot.human]

/-- A global numpy source that always draws `0`. -/
def rngZero : Rng := { stream := fun _ => 0, pos := 0 }

/-- A global numpy source that always draws `3/4`. -/
def rngThreeQ : Rng := { stream := fun _ => mkRat 3 4, pos := 0 }

/-- A global numpy source that always draws `1/2`, at position `0`. -/
def rngHalf : Rng := { stream := fun _ => mkRat 1 2, pos := 0 }

/-- Ambient state with empty interactive input and the all-zero sources. -/
def ps0 : PS Nat :=
  { stdin := [], rng := rngZero, pyStream := fun _ => 0, pyPos := 0, trace := [] }

/-- Ambient state whose interactive input stream holds an illegal label
followed by a legal one. -/
def psBadInput : PS Nat :=
  { stdin := ["zz", "m"], rng := rngZero, pyStream := fun _ => 0, pyPos := 0, trace := [] }

/-- Ambient state drawing `3/4` from the global numpy source. -/
def psThreeQ : PS Nat :=
  { stdin := [], rng := rngThreeQ, pyStream := fun _ => 0, pyPos := 0, trace := [] }

/-! Helper lemmas. -/

/-- The explicit fraction addition used by the embedding agrees with
rational addition. -/
theorem ratAdd_eq (a b : ℚ) : ratAdd a b = a + b := by
  have ha : (a.den : ℤ) ≠ 0 := Int.natCast_ne_zero.mpr a.den_ne_zero
  have hb : (b.den : ℤ) ≠ 0 := Int.natCast_ne_zero.mpr b.den_ne_zero
  rw [ratAdd, Rat.mkRat_eq_divInt]
  conv_rhs => rw [← Rat.num_divInt_den a, ← Rat.num_divInt_den b]
  rw [Rat.divInt_add_divInt _ _ ha hb]
  push_cast
  ring_nf

/-- The explicit list summation used by the embedding agrees with
`List.sum`. -/
theorem ratSum_eq (l : List ℚ) : ratSum l = l.sum := by
  induction l with
  | nil => rfl
  | cons x r ih => rw [ratSum, ratAdd_eq, ih, List.sum_cons]

/-- `List.find?` returns the head of the filtered list. -/
theorem find?_eq_head?_filterL {α : Type} (p : α → Bool) (l : List α) :
    l.find? p = (l.filter p).head? := by
  induction l with
  | nil => rfl
  | cons x r ih =>
    by_cases h : p x
    · rw [List.find?_cons_of_pos _ h, List.filter_cons_of_pos h, List.head?_cons]
    · rw [List.find?_cons_of_neg _ (by simpa using h),
        List.filter_cons_of_neg (by simpa using h), ih]

/-- Scanner-neutral events leave `preScan` untouched. -/
theorem preScan_neutral {S : Type} [DecidableEq S] (e : Event S) (he : neutralEv e = true)
    (p : List (S × Nat)) (r : List (Event S)) : preScan p (e :: r) = preScan p r := by
  cases e <;> simp [neutralEv] at he <;> rfl

/-- Scanner-neutral events leave `seatScan` untouched. -/
theorem seatScan_neutral {S : Type} (n : Nat) (e : Event S) (he : neutralEv e = true)
    (p : List Nat) (r : List (Event S)) : seatScan n p (e :: r) = seatScan n p r := by
  cases e <;> simp [neutralEv] at he <;> rfl

/-- Scanning a block of inform events accumulates their state-action
pairs onto the pending list. -/
theorem preScan_informs {S : Type} [DecidableEq S] (s : S) (cp : Int) (a : Nat) :
    ∀ (idxs : List Nat) (p : List (S × Nat)) (r : List (Event S)),
    preScan p (informEvents idxs s cp a ++ r) =
      preScan (p ++ idxs.map (fun _ => (s, a))) r := by
  intro idxs
  induction idxs with
  | nil => intro p r; simp [informEvents]
  | cons i idxs ih =>
    intro p r
    simp only [informEvents, List.map_cons, List.cons_append] at ih ⊢
    rw [preScan, ih]
    simp

/-- All the pending pairs produced by an inform block agree with the
pair checked at the apply event. -/
theorem informPairs_all {S : Type} [DecidableEq S] (s : S) (a : Nat) (idxs : List Nat) :
    (idxs.map (fun _ => (s, a))).all (fun q => decide (q = (s, a))) = true := by
  induction idxs with
  | nil => rfl
  | cons i idxs ih => simp [ih]

/-- Scanning a block of inform events accumulates their indices onto the
pending list. -/
theorem seatScan_informs {S : Type} (n : Nat) (s : S) (cp : Int) (a : Nat) :
    ∀ (idxs : List Nat) (p : List Nat) (r : List (Event S)),
    seatScan n p (informEvents idxs s cp a ++ r) = seatScan n (p ++ idxs) r := by
  intro idxs
  induction idxs with
  | nil => intro p r; simp [informEvents]
  | cons i idxs ih =>
    intro p r
    simp only [informEvents, List.map_cons, List.cons_append] at ih ⊢
    rw [seatScan, ih]
    simp

/-- A well-shaped dispatcher trace passes the pre-apply observation
scanner with an empty final pending list. -/
theorem preScan_chunks {S : Type} [DecidableEq S] (n : Nat) (d : List (Event S))
    (hd : ChunksOK n d) : preScan [] d = (true, []) := by
  induction hd with
  | nil => rfl
  | classifyOnly s => rfl
  | classifyNeutral s e he => rw [preScan, preScan_neutral e he]; rfl
  | forcedChunk astr s s' cp a d hd ih =>
    rw [preScan_neutral (Event.record astr) rfl, preScan_informs, preScan]
    simp [informPairs_all, ih]
  | mainChunk e he s s' cp a astr d hd ih =>
    rw [preScan, preScan_neutral e he, preScan_informs,
      preScan_neutral (Event.record astr) rfl, preScan]
    simp [informPairs_all, ih]

/-- A well-shaped dispatcher trace passes the informed-seats scanner
with an empty final pending list. -/
theorem seatScan_chunks {S : Type} (n : Nat) (d : List (Event S))
    (hd : ChunksOK n d) : seatScan n [] d = (true, []) := by
  induction hd with
  | nil => rfl
  | classifyOnly s => rfl
  | classifyNeutral s e he => rw [seatScan, seatScan_neutral n e he]; rfl
  | forcedChunk astr s s' cp a d hd ih =>
    rw [seatScan_neutral n (Event.record astr) rfl, seatScan_informs, seatScan]
    simp [ih]
  | mainChunk e he s s' cp a astr d hd ih =>
    rw [seatScan, seatScan_neutral n e he, seatScan_informs,
      seatScan_neutral n (Event.record astr) rfl, seatScan]
    simp [ih]

/-- Every trace suffix generated by the main loop is a well-shaped
sequence of ply chunks. -/
theorem playLoop_chunks {S : Type} (E : Engine S) (bots : List (Bot S)) :
    ∀ (fuel : Nat) (s : S) (hist : List String) (ps : PS S),
    ∃ d, (playLoop E bots fuel s hist ps).2.trace = ps.trace ++ d ∧ ChunksOK bots.length d := by
  intro fuel
  induction fuel with
  | zero => intro s hist ps; exact ⟨[], by simp [playLoop], ChunksOK.nil⟩
  | succ fuel ih =>
    intro s hist ps
    by_cases hT : E.isTerminal s
    · exact ⟨[], by simp [playLoop, hT], ChunksOK.nil⟩
    · by_cases hC : E.isChanceNode s
      · rcases hnp : npDraw (E.chanceOutcomes s) ps.rng with ⟨o, rng'⟩
        cases o with
        | none =>
          refine ⟨[Event.classify s], ?_, ChunksOK.classifyOnly s⟩
          simp [playLoop, hT, hC, hnp]
        | some a =>
          rcases ih (E.applyAction s a)
            (hist ++ [E.actionToString s (E.currentPlayer s) a])
            { ps with
                rng := rng'
                trace := (ps.trace ++ [Event.classify s] ++ [Event.chanceDraw s (ps.rng.stream ps.rng.pos)])
                  ++ informEvents (nonActingIdxs bots.length (E.currentPlayer s)) s (E.currentPlayer s) a
                  ++ [Event.record (E.actionToString s (E.currentPlayer s) a)]
                  ++ [Event.applyE s (E.applyAction s a) (E.currentPlayer s) a false] }
            with ⟨d, htr, hok⟩
          refine ⟨Event.classify s :: Event.chanceDraw s (ps.rng.stream ps.rng.pos) ::
            (informEvents (nonActingIdxs bots.length (E.currentPlayer s)) s (E.currentPlayer s) a
              ++ Event.record (E.actionToString s (E.currentPlayer s) a) ::
                Event.applyE s (E.applyAction s a) (E.currentPlayer s) a false :: d), ?_, ?_⟩
          · rw [playLoop]
            simp only [hT, hC, Bool.false_eq_true, if_false, if_true, hnp, applyAndNotify]
            rw [htr]
            simp
          · exact ChunksOK.mainChunk (Event.chanceDraw s (ps.rng.stream ps.rng.pos)) rfl
              s (E.applyAction s a) (E.currentPlayer s) a
              (E.actionToString s (E.currentPlayer s) a) d hok
      · by_cases hS : E.isSimultaneousNode s
        · refine ⟨[Event.classify s], ?_, ChunksOK.classifyOnly s⟩
          simp [playLoop, hT, hC, hS]
        · rcases hpg : pyGet bots (E.currentPlayer s) with _ | b
          · refine ⟨[Event.classify s], ?_, ChunksOK.classifyOnly s⟩
            simp [playLoop, hT, hC, hS, hpg]
          · cases b with
            | human =>
              rcases hin : ps.stdin with _ | ⟨astr, restIn⟩
              · refine ⟨[Event.classify s], ?_, ChunksOK.classifyOnly s⟩
                simp [playLoop, hT, hC, hS, hpg, hin]
              · rcases hga : _get_action E s astr with _ | a
                · refine ⟨[Event.classify s, Event.humanPrompt s astr], ?_,
                    ChunksOK.classifyNeutral s _ rfl⟩
                  simp [playLoop, hT, hC, hS, hpg, hin, hga]
                · rcases ih (E.applyAction s a) (hist ++ [astr])
                    { ps with
                        stdin := restIn
                        trace := (ps.trace ++ [Event.classify s] ++ [Event.humanPrompt s astr])
                          ++ informEvents (nonActingIdxs bots.length (E.currentPlayer s)) s (E.currentPlayer s) a
                          ++ [Event.record astr]
                          ++ [Event.applyE s (E.applyAction s a) (E.currentPlayer s) a false] }
                    with ⟨d, htr, hok⟩
                  refine ⟨Event.classify s :: Event.humanPrompt s astr ::
                    (informEvents (nonActingIdxs bots.length (E.currentPlayer s)) s (E.currentPlayer s) a
                      ++ Event.record astr ::
                        Event.applyE s (E.applyAction s a) (E.currentPlayer s) a false :: d), ?_, ?_⟩
                  · rw [playLoop]
                    simp only [hT, hC, hS, Bool.false_eq_true, if_false, if_true, hpg, hin, hga,
                      applyAndNotify]
                    rw [htr]
                    simp
                  · exact ChunksOK.mainChunk (Event.humanPrompt s astr) rfl
                      s (E.applyAction s a) (E.currentPlayer s) a astr d hok
            | scripted f =>
              rcases ih (E.applyAction s (f s))
                (hist ++ [E.actionToString s (E.currentPlayer s) (f s)])
                { ps with
                    trace := (ps.trace ++ [Event.classify s]
                        ++ [Event.botStep (E.currentPlayer s).toNat s (f s)])
                      ++ informEvents (nonActingIdxs bots.length (E.currentPlayer s)) s (E.currentPlayer s) (f s)
                      ++ [Event.record (E.actionToString s (E.currentPlayer s) (f s))]
                      ++ [Event.applyE s (E.applyAction s (f s)) (E.currentPlayer s) (f s) false] }
                with ⟨d, htr, hok⟩
              refine ⟨Event.classify s :: Event.botStep (E.currentPlayer s).toNat s (f s) ::
                (informEvents (nonActingIdxs bots.length (E.currentPlayer s)) s (E.currentPlayer s) (f s)
                  ++ Event.record (E.actionToString s (E.currentPlayer s) (f s)) ::
                    Event.applyE s (E.applyAction s (f s)) (E.currentPlayer s) (f s) false :: d), ?_, ?_⟩
              · rw [playLoop]
                simp only [hT, hC, hS, Bool.false_eq_true, if_false, if_true, hpg, applyAndNotify]
                rw [htr]
                simp
              · exact ChunksOK.mainChunk (Event.botStep (E.currentPlayer s).toNat s (f s)) rfl
                  s (E.applyAction s (f s)) (E.currentPlayer s) (f s)
                  (E.actionToString s (E.currentPlayer s) (f s)) d hok

/-- Every trace suffix generated by the forced-opening loop is a prefix
of well-shaped ply chunks: appending any well-shaped tail keeps the
whole well-shaped. -/
theorem runForced_chunks {S : Type} (E : Engine S) (bots : List (Bot S)) :
    ∀ (acts : List String) (s : S) (hist : List String) (ps : PS S),
    ∃ d, (runForced E bots acts s hist ps).2.trace = ps.trace ++ d ∧
      (∀ t, ChunksOK bots.length t → ChunksOK bots.length (d ++ t)) := by
  intro acts
  induction acts with
  | nil => intro s hist ps; exact ⟨[], by simp [runForced], fun t ht => ht⟩
  | cons astr rest ih =>
    intro s hist ps
    rcases hga : _get_action E s astr with _ | a
    · exact ⟨[], by simp [runForced, hga], fun t ht => ht⟩
    · rcases ih (E.applyAction s a) (hist ++ [astr])
        { ps with
            trace := ps.trace ++ [Event.record astr]
              ++ informEvents (List.range bots.length) s (E.currentPlayer s) a
              ++ [Event.applyE s (E.applyAction s a) (E.currentPlayer s) a true] }
        with ⟨d, htr, hok⟩
      refine ⟨Event.record astr ::
        (informEvents (List.range bots.length) s (E.currentPlayer s) a
          ++ Event.applyE s (E.applyAction s a) (E.currentPlayer s) a true :: d), ?_, ?_⟩
      · rw [runForced]
        simp only [hga]
        rw [htr]
        simp
      · intro t ht
        have h2 := hok t ht
        have := ChunksOK.forcedChunk astr s (E.applyAction s a) (E.currentPlayer s) a (d ++ t) h2
        simpa using this

/-- Every trace suffix generated by a whole game is a well-shaped
sequence of ply chunks. -/
theorem playGame_chunks {S : Type} (E : Engine S) (bots : List (Bot S)) (rf : Bool)
    (acts : List String) (fuel : Nat) (ps : PS S) :
    ∃ d, (playGame E bots rf acts fuel ps).2.trace = ps.trace ++ d ∧ ChunksOK bots.length d := by
  have hfrom : ∀ (acts2 : List String) (s : S) (ps2 : PS S),
      ∃ d, (playGameFrom E bots acts2 fuel s ps2).2.trace = ps2.trace ++ d ∧
        ChunksOK bots.length d := by
    intro acts2 s ps2
    rcases hrf : runForced E bots acts2 s [] ps2 with ⟨o, ps3⟩
    rcases runForced_chunks E bots acts2 s [] ps2 with ⟨d1, htr1, hok1⟩
    rw [hrf] at htr1
    cases o with
    | error e =>
      refine ⟨d1, ?_, ?_⟩
      · rw [playGameFrom, hrf]
        exact htr1
      · have := hok1 [] ChunksOK.nil
        simpa using this
    | ok result =>
      rcases result with ⟨s', hist⟩
      rcases playLoop_chunks E bots fuel s' hist ps3 with ⟨d2, htr2, hok2⟩
      refine ⟨d1 ++ d2, ?_, hok1 d2 hok2⟩
      rw [playGameFrom, hrf, htr2, htr1]
      simp
  rw [playGame]
  cases rf with
  | false => exact hfrom acts E.newInitialState ps
  | true =>
    cases hie : acts.isEmpty with
    | false => exact ⟨[], by simp [hie], ChunksOK.nil⟩
    | true =>
      simp only [hie, if_true]
      rcases hpc : pyChoose (E.legalActions E.newInitialState) ps with ⟨o, ps'⟩
      have h2 : ps'.trace = ps.trace := by
        have h3 : (pyChoose (E.legalActions E.newInitialState) ps).2.trace = ps.trace := by
          rw [pyChoose]
          by_cases h4 : (E.legalActions E.newInitialState).isEmpty <;> simp [h4]
        rw [hpc] at h3
        exact h3
      cases o with
      | none => exact ⟨[], by simp [hpc, h2], ChunksOK.nil⟩
      | some a =>
        rcases hfrom [E.actionToString E.newInitialState (E.currentPlayer E.newInitialState) a]
          E.newInitialState ps' with ⟨d, htr, hok⟩
        refine ⟨d, ?_, hok⟩
        exact htr.trans (by rw [h2])

/-- If the engine never reports a chance node, the main loop never reads
the global numpy source or the global Python source: its result,
remaining input and trace are the same for any states of those sources. -/
theorem playLoop_rng_irrel {S : Type} (E : Engine S) (bots : List (Bot S))
    (hch : ∀ s, E.isChanceNode s = false) :
    ∀ (fuel : Nat) (s : S) (hist : List String) (stdin : List String) (tr : List (Event S))
      (r r' : Rng) (p p' : Nat → Nat) (q q' : Nat),
    resObs (playLoop E bots fuel s hist ⟨stdin, r, p, q, tr⟩) =
      resObs (playLoop E bots fuel s hist ⟨stdin, r', p', q', tr⟩) := by
  intro fuel
  induction fuel with
  | zero => intro s hist stdin tr r r' p p' q q'; rfl
  | succ fuel ih =>
    intro s hist stdin tr r r' p p' q q'
    by_cases hT : E.isTerminal s
    · simp [playLoop, hT, resObs]
    · by_cases hS : E.isSimultaneousNode s
      · simp [playLoop, hT, hch s, hS, resObs]
      · rcases hpg : pyGet bots (E.currentPlayer s) with _ | b
        · simp [playLoop, hT, hch s, hS, hpg, resObs]
        · cases b with
          | human =>
            cases stdin with
            | nil => simp [playLoop, hT, hch s, hS, hpg, resObs]
            | cons astr restIn =>
              rcases hga : _get_action E s astr with _ | a
              · simp [playLoop, hT, hch s, hS, hpg, hga, resObs]
              · simp only [playLoop, hT, hch s, hS, hpg, hga, Bool.false_eq_true, if_false,
                  applyAndNotify]
                exact ih _ _ _ _ r r' p p' q q'
          | scripted f =>
            simp only [playLoop, hT, hch s, hS, hpg, Bool.false_eq_true, if_false,
              applyAndNotify]
            exact ih _ _ _ _ r r' p p' q q'

/-- The forced-opening loop touches neither the interactive input nor
either global pseudorandom source; its result and trace do not depend on
the sources' states. -/
theorem runForced_ps {S : Type} (E : Engine S) (bots : List (Bot S)) :
    ∀ (acts : List String) (s : S) (hist : List String) (stdin : List String)
      (tr : List (Event S)) (r r' : Rng) (p p' : Nat → Nat) (q q' : Nat),
    (runForced E bots acts s hist ⟨stdin, r, p, q, tr⟩).1 =
      (runForced E bots acts s hist ⟨stdin, r', p', q', tr⟩).1 ∧
    (runForced E bots acts s hist ⟨stdin, r, p, q, tr⟩).2 =
      ⟨stdin, r, p, q, (runForced E bots acts s hist ⟨stdin, r', p', q', tr⟩).2.trace⟩ := by
  intro acts
  induction acts with
  | nil => intro s hist stdin tr r r' p p' q q'; exact ⟨rfl, rfl⟩
  | cons astr rest ih =>
    intro s hist stdin tr r r' p p' q q'
    rcases hga : _get_action E s astr with _ | a
    · simp [runForced, hga]
    · simp only [runForced, hga]
      exact ih _ _ _ _ r r' p p' q q'

/-- A whole game without `random_first` and without chance nodes is
independent of both global pseudorandom sources. -/
theorem playGame_rng_irrel {S : Type} (E : Engine S) (bots : List (Bot S))
    (hch : ∀ s, E.isChanceNode s = false) (acts : List String) (fuel : Nat)
    (stdin : List String) (tr : List (Event S)) (r r' : Rng) (p p' : Nat → Nat) (q q' : Nat) :
    resObs (playGame E bots false acts fuel ⟨stdin, r, p, q, tr⟩) =
      resObs (playGame E bots false acts fuel ⟨stdin, r', p', q', tr⟩) := by
  rcases runForced_ps E bots acts E.newInitialState [] stdin tr r r' p p' q q' with ⟨h1, h2⟩
  have h2' : (runForced E bots acts E.newInitialState [] ⟨stdin, r', p', q', tr⟩).2 =
      ⟨stdin, r', p', q', (runForced E bots acts E.newInitialState [] ⟨stdin, r', p', q', tr⟩).2.trace⟩ := by
    rcases runForced_ps E bots acts E.newInitialState [] stdin tr r' r' p' p' q' q' with ⟨_, h⟩
    exact h
  show resObs (playGameFrom E bots acts fuel E.newInitialState ⟨stdin, r, p, q, tr⟩) =
    resObs (playGameFrom E bots acts fuel E.newInitialState ⟨stdin, r', p', q', tr⟩)
  rw [playGameFrom, playGameFrom]
  rcases hrf : (runForced E bots acts E.newInitialState [] ⟨stdin, r', p', q', tr⟩) with ⟨o, psB⟩
  rw [hrf] at h1 h2 h2'
  rcases hrf2 : (runForced E bots acts E.newInitialState [] ⟨stdin, r, p, q, tr⟩) with ⟨o2, psA⟩
  rw [hrf2] at h1 h2
  simp only at h1 h2 h2'
  subst h1
  cases o2 with
  | error e =>
    have hA1 : psA.stdin = stdin := by rw [h2]
    have hA2 : psA.trace = psB.trace := by rw [h2]
    have hB1 : psB.stdin = stdin := by rw [h2']
    simp [resObs, hA1, hA2, hB1]
  | ok result =>
    rcases result with ⟨s', hist⟩
    simp only
    rw [h2, h2']
    exact playLoop_rng_irrel E bots hch fuel s' hist stdin _ r r' p p' q q'

/-- A session of games without `random_first` on a chance-free engine is
independent of both global pseudorandom sources. -/
theorem sessionLoop_rng_irrel {S : Type} (E : Engine S)
    (hch : ∀ s, E.isChanceNode s = false) (initActs : List String) (fuel : Nat) :
    ∀ (ks : List Nat) (g : Int) (bots2 : List (Bot S)) (st : Stats) (stdin : List String)
      (tr : List (Event S)) (r r' : Rng) (p p' : Nat → Nat) (q q' : Nat),
    sessionObs (sessionLoop E false initActs fuel ks g bots2 st ⟨stdin, r, p, q, tr⟩) =
      sessionObs (sessionLoop E false initActs fuel ks g bots2 st ⟨stdin, r', p', q', tr⟩) := by
  intro ks
  induction ks with
  | nil => intro g bots2 st stdin tr r r' p p' q q'; rfl
  | cons k ks ih =>
    intro g bots2 st stdin tr r r' p p' q q'
    have hobs := playGame_rng_irrel E (if k = 2 then bots2.set 1 Bot.human else bots2) hch
      initActs fuel stdin tr r r' p p' q q'
    rcases hA : playGame E (if k = 2 then bots2.set 1 Bot.human else bots2) false initActs fuel
      ⟨stdin, r, p, q, tr⟩ with ⟨oA, psA⟩
    rcases hB : playGame E (if k = 2 then bots2.set 1 Bot.human else bots2) false initActs fuel
      ⟨stdin, r', p', q', tr⟩ with ⟨oB, psB⟩
    rw [hA, hB] at hobs
    simp only [resObs, Prod.mk.injEq] at hobs
    obtain ⟨ho, hst, htr⟩ := hobs
    subst ho
    have hpsA : psA = ⟨psA.stdin, psA.rng, psA.pyStream, psA.pyPos, psA.trace⟩ := rfl
    have hpsB : psB = ⟨psB.stdin, psB.rng, psB.pyStream, psB.pyPos, psB.trace⟩ := rfl
    cases oA with
    | error e =>
      rw [sessionLoop, sessionLoop, hA, hB]
      by_cases hc : sessionCatches e <;> simp [hc, sessionObs, hst, htr]
    | ok result =>
      rcases result with ⟨rets, hist⟩
      rw [sessionLoop, sessionLoop, hA, hB]
      simp only
      rw [hpsA, hpsB, hst, htr]
      exact ih _ _ _ _ _ psA.rng psB.rng psA.pyStream psB.pyStream psA.pyPos psB.pyPos

/-- Replaying a concatenation of forced-opening labels is replaying the
first part and, if it succeeded, continuing with the second. -/
theorem runForced_append {S : Type} (E : Engine S) (bots : List (Bot S)) :
    ∀ (l1 l2 : List String) (s : S) (hist : List String) (ps : PS S),
    runForced E bots (l1 ++ l2) s hist ps =
      (match runForced E bots l1 s hist ps with
       | (Except.ok sh, ps') => runForced E bots l2 sh.1 sh.2 ps'
       | (Except.error e, ps') => (Except.error e, ps')) := by
  intro l1
  induction l1 with
  | nil => intro l2 s hist ps; rfl
  | cons astr rest ih =>
    intro l2 s hist ps
    rcases hga : _get_action E s astr with _ | a
    · simp [runForced, hga]
    · simp only [List.cons_append, runForced, hga]
      exact ih l2 _ _ _

/-! Claim theorems. -/

/-- Claim C1, as stated, is false on the code: in a concrete two-ply run
of `_play_game` there is an `inform_action` call that happens before its
ply's `apply_action` (there is no preceding state mutation whose
post-state it could carry), so observation calls do not receive the
post-apply state. -/
theorem claim_C1_counterexample :
    observePostApply ((playGame E1 botsScripted false [] 8 ps0).2.trace) = false := by
  decide

/-- Claim C1 (amended): for every engine, bot list, forced-opening list
and fuel, every `inform_action` call of a ply receives the pre-apply
state and the action about to be applied, happens strictly before that
ply's state mutation, and all of a ply's observation calls happen before
the next ply's decision classification. -/
theorem claim_C1_theorem {S : Type} [DecidableEq S] (E : Engine S) (bots : List (Bot S))
    (rf : Bool) (acts : List String) (fuel : Nat) (stdin : List String) (r : Rng)
    (p : Nat → Nat) (q : Nat) :
    observePreApply ((playGame E bots rf acts fuel ⟨stdin, r, p, q, []⟩).2.trace) = true := by
  rcases playGame_chunks E bots rf acts fuel ⟨stdin, r, p, q, []⟩ with ⟨d, htr, hok⟩
  rw [htr]
  show observePreApply ([] ++ d) = true
  rw [List.nil_append, observePreApply, preScan_chunks bots.length d hok]
  rfl

/-- Claim C2, as stated, is false on the code: in a concrete run whose
first ply is a forced-opening move, the acting seat's own bot is also
informed (the forced-opening loop informs every bot), so the
informed-seat set is not "every seat other than the acting seat". -/
theorem claim_C2_counterexample :
    claimSeatsOK 2 ((playGame E1 botsScripted false ["m"] 8 ps0).2.trace) = false := by
  decide

/-- Claim C2 (amended): for every applied ply, the bots informed are
exactly, and exactly once each: every bot whose index differs from the
acting player for main-loop plies (hence all bots at a chance ply, whose
acting player is the chance id `-1`), and every bot — the acting seat's
included — for forced-opening plies. -/
theorem claim_C2_theorem {S : Type} (E : Engine S) (bots : List (Bot S))
    (rf : Bool) (acts : List String) (fuel : Nat) (stdin : List String) (r : Rng)
    (p : Nat → Nat) (q : Nat) :
    informedSeatsOK bots.length ((playGame E bots rf acts fuel ⟨stdin, r, p, q, []⟩).2.trace)
      = true := by
  rcases playGame_chunks E bots rf acts fuel ⟨stdin, r, p, q, []⟩ with ⟨d, htr, hok⟩
  rw [htr]
  show informedSeatsOK bots.length ([] ++ d) = true
  rw [List.nil_append, informedSeatsOK, seatScan_chunks bots.length d hok]
  rfl

/-- Claim C8, as stated, is false on the code: on a state whose two legal
actions `7` and `8` both carry the label `"x"`, `_get_action` silently
returns the first match `7` instead of refusing to pick among
duplicates. -/
theorem claim_C8_counterexample :
    _get_action E8 0 "x" = some 7 ∧ matchingActions E8 0 "x" = [7, 8] := by
  decide

/-- Claim C8 (amended): `_get_action` is a pure function of the state
and label that returns the head of the list of legal actions whose label
matches, in legal-action order: `none` when no label matches, the unique
match when exactly one does, and silently the first match when several
do. -/
theorem claim_C8_theorem {S : Type} (E : Engine S) (s : S) (astr : String) :
    _get_action E s astr = (matchingActions E s astr).head? := by
  rw [_get_action, matchingActions, find?_eq_head?_filterL]

/-- Claim C10: with `num_games = 0` the session loop body never runs,
`game_num` keeps its initial value `0`, and the session reports
`game_num + 1 = 1` games played, not `0`. -/
theorem claim_C10_theorem {S : Type} (E : Engine S) (bots : List (Bot S)) (rf : Bool)
    (acts : List String) (fuel : Nat) (ps : PS S) :
    (mainRun E bots rf acts 0 fuel ps).1 = SessionOutcome.finished 0 stats0 ∧
    gamesPlayedReport (mainRun E bots rf acts 0 fuel ps).1 = some 1 := by
  have h : (mainRun E bots rf acts 0 fuel ps).1 = SessionOutcome.finished 0 stats0 := by
    rw [mainRun, List.range_zero, sessionLoop]
  exact ⟨h, by rw [h]; rfl⟩

/-- Claim C3, as stated, is false on the code: when the interactive
agent supplies the illegal label `"zz"` (with a legal `"m"` still
waiting in the input stream), `_play_game` aborts the whole session via
`sys.exit("Invalid move: zz")` instead of re-prompting — the remaining
input is never read. -/
theorem claim_C3_counterexample :
    (playGame E1 botsHuman false [] 8 psBadInput).1 =
      Except.error (PlayErr.exitInvalid "Invalid move: zz") ∧
    (playGame E1 botsHuman false [] 8 psBadInput).2.stdin = ["m"] := by
  exact ⟨rfl, rfl⟩

/-- Claim C3 (amended): whenever the bot to act is the interactive
HumanBot and the next input line does not resolve to a legal action, the
dispatcher terminates the session fatally with `sys.exit` carrying an
invalid-move message, consuming only that one line and re-prompting
never. -/
theorem claim_C3_theorem {S : Type} (E : Engine S) (bots : List (Bot S)) (fuel : Nat)
    (s : S) (hist : List String) (astr : String) (rest : List String) (r : Rng)
    (p : Nat → Nat) (q : Nat) (tr : List (Event S))
    (h1 : E.isTerminal s = false) (h2 : E.isChanceNode s = false)
    (h3 : E.isSimultaneousNode s = false)
    (h4 : pyGet bots (E.currentPlayer s) = some Bot.human)
    (h5 : _get_action E s astr = none) :
    playLoop E bots (fuel + 1) s hist ⟨astr :: rest, r, p, q, tr⟩ =
      (Except.error (PlayErr.exitInvalid (String.append "Invalid move: " astr)),
       ⟨rest, r, p, q, tr ++ [Event.classify s, Event.humanPrompt s astr]⟩) := by
  simp [playLoop, h1, h2, h3, h4, h5]

/-- Witness for claim C3's theorem at a concrete engine and input. -/
theorem claim_C3_witness :
    playLoop E1 botsHuman (7 + 1) 0 [] ⟨["zz", "m"], rngZero, fun _ => 0, 0, []⟩ =
      (Except.error (PlayErr.exitInvalid (String.append "Invalid move: " "zz")),
       ⟨["m"], rngZero, fun _ => 0, 0, [] ++ [Event.classify 0, Event.humanPrompt 0 "zz"]⟩) :=
  claim_C3_theorem E1 botsHuman 7 0 [] "zz" ["m"] rngZero (fun _ => 0) 0 []
    rfl rfl rfl rfl rfl

/-- Claim C4, as stated, is false on the code: chance-node sampling uses
the process-global numpy source, which `_init_bot` never seeds (only the
per-bot `RandomState(FLAGS.seed)` instances are seeded), so two runs
with identical seed-derived bots but different global-source states can
produce different histories and results. -/
theorem claim_C4_counterexample :
    (mainRun E4 botsScripted false [] 1 9 ps0).1 ≠
      (mainRun E4 botsScripted false [] 1 9 psThreeQ).1 := by
  decide

/-- Claim C4 (amended): reproducibility holds exactly when no chance
node is drawn: on an engine that never reports a chance node (and with
`random_first` off), the session outcome, remaining input and full event
trace are independent of the states of both unseeded global sources, so
two runs with the same seed-derived bots coincide. -/
theorem claim_C4_theorem {S : Type} (E : Engine S) (bots : List (Bot S))
    (initActs : List String) (numGames fuel : Nat) (stdin : List String)
    (tr : List (Event S)) (r r' : Rng) (p p' : Nat → Nat) (q q' : Nat)
    (hch : ∀ s, E.isChanceNode s = false) :
    sessionObs (mainRun E bots false initActs numGames fuel ⟨stdin, r, p, q, tr⟩) =
      sessionObs (mainRun E bots false initActs numGames fuel ⟨stdin, r', p', q', tr⟩) :=
  sessionLoop_rng_irrel E hch initActs fuel (List.range numGames) 0 bots stats0
    stdin tr r r' p p' q q'

/-- Witness for claim C4's theorem: on the chance-free engine the
outcome is the same under the all-zero and all-`3/4` global sources. -/
theorem claim_C4_witness :
    sessionObs (mainRun E1 botsScripted false [] 5 8 ps0) =
      sessionObs (mainRun E1 botsScripted false [] 5 8 psThreeQ) :=
  claim_C4_theorem E1 botsScripted [] 5 8 [] [] rngZero rngThreeQ
    (fun _ => 0) (fun _ => 0) 0 0 (fun _ => rfl)

/-- Claim C5: in the spec's end-to-end scenario — 5 configured games,
seat 1 replaced by the interactive agent at game index 2, interactive
input exhausted (EOF) during game 2 — the session stops via the caught
interrupt (no crash, the summary is still printed), the stats retain
exactly the two fully completed games, and the reported completed-games
count is exactly 2. -/
theorem claim_C5_theorem :
    (mainRun E1 botsScripted false [] 5 8 ps0).1 =
      SessionOutcome.stopped 1 ⟨[("m m", 2)], [2, -2], [2, 0]⟩ ∧
    gamesPlayedReport (mainRun E1 botsScripted false [] 5 8 ps0).1 = some 2 := by
  constructor
  · decide
  · decide

/-- Claim C6: if some forced-opening label fails to resolve (after any
successfully replayed prefix), the session terminates fatally with
`sys.exit("Invalid action: ...")` — uncaught by the interrupt handler,
so no summary is printed — before that ply is applied (the process state
is exactly the prefix's: no further events), and with zero games
recorded in the accumulator. -/
theorem claim_C6_theorem {S : Type} (E : Engine S) (bots : List (Bot S))
    (pre : List String) (astr : String) (rest : List String) (n fuel : Nat) (ps : PS S)
    (s1 : S) (h1 : List String) (ps1 : PS S)
    (hpre : runForced E bots pre E.newInitialState [] ps = (Except.ok (s1, h1), ps1))
    (hfail : _get_action E s1 astr = none) :
    mainRun E bots false (pre ++ astr :: rest) (n + 1) fuel ps =
      (SessionOutcome.exited (PlayErr.exitInvalid (String.append "Invalid action: " astr))
        stats0, ps1) := by
  have hgame : playGame E bots false (pre ++ astr :: rest) fuel ps =
      (Except.error (PlayErr.exitInvalid (String.append "Invalid action: " astr)), ps1) := by
    show playGameFrom E bots (pre ++ astr :: rest) fuel E.newInitialState ps = _
    rw [playGameFrom, runForced_append, hpre]
    simp [runForced, hfail]
  rw [mainRun, List.range_succ_eq_map, sessionLoop]
  simp [hgame, sessionCatches]

/-- Witness for claim C6's theorem: the label `"zz"` is not a legal
first-move label of the toy game, and the session exits with empty
stats. -/
theorem claim_C6_witness :
    mainRun E1 botsScripted false ([] ++ "zz" :: []) (2 + 1) 8 ps0 =
      (SessionOutcome.exited (PlayErr.exitInvalid (String.append "Invalid action: " "zz"))
        stats0, ps0) :=
  claim_C6_theorem E1 botsScripted [] "zz" [] 2 8 ps0 0 [] ps0 rfl rfl

/-- Claim C7: at a simultaneous-decision node the dispatcher raises
`ValueError` immediately after classification: no action is obtained,
applied or recorded (the trace gains only the classification event and
the state, history and input are untouched), and the error is not caught
by the session's interrupt handler, so it is fatal. -/
theorem claim_C7_theorem {S : Type} (E : Engine S) (bots : List (Bot S)) (fuel : Nat)
    (s : S) (hist : List String) (ps : PS S)
    (h1 : E.isTerminal s = false) (h2 : E.isChanceNode s = false)
    (h3 : E.isSimultaneousNode s = true) :
    playLoop E bots (fuel + 1) s hist ps =
      (Except.error PlayErr.simulNode, { ps with trace := ps.trace ++ [Event.classify s] }) ∧
    sessionCatches PlayErr.simulNode = false := by
  refine ⟨?_, rfl⟩
  simp [playLoop, h1, h2, h3]

/-- Witness for claim C7's theorem at a concrete simultaneous-node
engine. -/
theorem claim_C7_witness :
    playLoop E7 botsScripted (4 + 1) 0 [] ps0 =
      (Except.error PlayErr.simulNode, { ps0 with trace := ps0.trace ++ [Event.classify 0] }) ∧
    sessionCatches PlayErr.simulNode = false :=
  claim_C7_theorem E7 botsScripted 4 0 [] ps0 rfl rfl rfl

/-- Claim C9, as stated, is false on the code: `np.random.choice` on the
degenerate distribution `[(A, 0), (B, 1)]` does consume randomness — the
global source's position advances by one draw. -/
theorem claim_C9_counterexample :
    (npDraw [(0, (0 : ℚ)), (1, 1)] rngHalf).2.pos ≠ rngHalf.pos := by
  decide

/-- Claim C9 (amended): on the degenerate distribution `[(A, 0), (B, 1)]`
the chance resolver always selects `B`, no matter what the (nonnegative)
pending draw of the global source is — but it still consumes exactly one
draw, advancing the source's position. -/
theorem claim_C9_theorem (A B : Nat) (r : Rng) (h : 0 ≤ r.stream r.pos) :
    npDraw [(A, (0 : ℚ)), (B, 1)] r =
      (some B, { stream := r.stream, pos := r.pos + 1 }) := by
  have hc : cdf [(0 : ℚ), 1] = [0, 1] := by
    simp [cdf, List.range_succ, ratSum, ratAdd_eq]
  have hidx : npChoiceIdx [(0 : ℚ), 1] (r.stream r.pos) = 1 := by
    rw [npChoiceIdx, hc, searchsortedRight]
    by_cases h2 : (1 : ℚ) ≤ r.stream r.pos <;>
      simp [List.countP_cons, h, h2]
  rw [npDraw]
  simp [hidx]

/-- Witness for claim C9's theorem at the half-draw source. -/
theorem claim_C9_witness :
    npDraw [(5, (0 : ℚ)), (9, 1)] rngHalf =
      (some 9, { stream := rngHalf.stream, pos := rngHalf.pos + 1 }) :=
  claim_C9_theorem 5 9 rngHalf (by decide)

end ChessAI
